import Mathlib

/-!
# Boardprep — goal rollover and progress aggregation, verified

A shallow embedding of the study-tracking logic of the Boardprep repository:
the goal-visibility filter and the toggle operation (`services/api.ts`),
the session retrieval (`api.getSessions`), the dashboard progress
aggregation (`components/Dashboard.tsx`) and the analytics statistics
(`components/Analytics.tsx`).

Calendar dates (ISO `YYYY-MM-DD` strings in the source, compared with `<`
and `===`, which on ISO strings is exactly chronological order) are
modelled as integers counting days; "yesterday" is `today - 1`.
Numeric quantities (`durationMinutes`, `targetHours`, scores) are
modelled as rationals; JavaScript `Math.round` and `toFixed(1)` round
half toward positive infinity, which is Mathlib's `round`.
-/

namespace Boardprep

/-- `Priority` enumeration from `types.ts`. -/
inductive Priority where
  | High
  | Medium
  | Low
deriving DecidableEq, Repr

/-- `DailyGoal` record from `types.ts`.  `date` and the optional
`completedAt` are calendar days; `subject` is kept as its literal string
(the aggregator is enumeration-agnostic). -/
structure DailyGoal where
  id : String
  userId : String
  date : Int
  title : String
  subject : String
  targetHours : ℚ
  completed : Bool
  priority : Priority
  createdAt : Int
  completedAt : Option Int
deriving DecidableEq, Repr

/-- `StudySession` record from `types.ts`. -/
structure StudySession where
  id : String
  userId : String
  subject : String
  topic : String
  startTime : Int
  endTime : Int
  durationMinutes : ℚ
  date : Int
deriving DecidableEq, Repr

/-! ## Goal visibility filter (`api.getGoals`, services/api.ts) -/

/-- Rule 1 of the visibility filter: the goal is dated today. -/
def condToday (today : Int) (g : DailyGoal) : Bool :=
  g.date == today

/-- Rule 2: a past-dated goal that is not completed (rollover). -/
def condPastIncomplete (today : Int) (g : DailyGoal) : Bool :=
  decide (g.date < today) && !g.completed

/-- Rule 3: a past-dated goal completed today. -/
def condPastCompletedToday (today : Int) (g : DailyGoal) : Bool :=
  decide (g.date < today) && g.completed && g.completedAt == some today

/-- `shouldIncludeGoal` from `api.getGoals`: today's goals, past
incomplete goals, and past goals completed today. -/
def shouldIncludeGoal (date : Int) (g : DailyGoal) : Bool :=
  let isToday := g.date == date
  let isPastIncomplete := decide (g.date < date) && !g.completed
  let isPastCompletedToday := decide (g.date < date) && g.completed && g.completedAt == some date
  isToday || isPastIncomplete || isPastCompletedToday

/-- `api.getGoals`: both the Firestore and the mock branch filter the
user's full goal collection through `shouldIncludeGoal`. -/
def getGoals (all : List DailyGoal) (date : Int) : List DailyGoal :=
  all.filter (shouldIncludeGoal date)

/-! ## Toggle (`api.toggleGoal`, services/api.ts) -/

/-- `api.toggleGoal`: one update setting `completed := !currentStatus`
and `completedAt := today` when newly completed, `null` otherwise.
The caller (`Dashboard.toggleGoalCompletion`) passes the goal's own
`completed` flag as `currentStatus`. -/
def toggleGoal (g : DailyGoal) (currentStatus : Bool) (today : Int) : DailyGoal :=
  let newStatus := !currentStatus
  { g with
    completed := newStatus
    completedAt := if newStatus then some today else none }

/-- Two successive toggles of the same goal on the same day, each passing
the goal's current `completed` flag, as two clicks of the dashboard's
toggle button do. -/
def doubleToggle (g : DailyGoal) (today : Int) : DailyGoal :=
  let g1 := toggleGoal g g.completed today
  toggleGoal g1 g1.completed today

/-! ## Claims on visibility and toggling -/

/-- C1: a goal is returned by `getGoals` iff it is stored and satisfies
one of the three visibility rules; the three rules are pairwise
disjoint. -/
theorem getGoals_visibility (all : List DailyGoal) (today : Int) (g : DailyGoal) :
    (g ∈ getGoals all today ↔
      g ∈ all ∧ (condToday today g = true ∨ condPastIncomplete today g = true ∨
        condPastCompletedToday today g = true)) ∧
    (condToday today g && condPastIncomplete today g) = false ∧
    (condToday today g && condPastCompletedToday today g) = false ∧
    (condPastIncomplete today g && condPastCompletedToday today g) = false := by
  refine ⟨?_, ?_, ?_, ?_⟩
  · rw [getGoals, List.mem_filter]
    simp only [shouldIncludeGoal, condToday, condPastIncomplete, condPastCompletedToday,
      Bool.or_eq_true, Bool.and_eq_true]
    tauto
  · simp only [condToday, condPastIncomplete, Bool.and_eq_false_iff, beq_iff_eq,
      Bool.and_eq_true, decide_eq_true_eq]
    by_cases h : g.date = today
    · right
      simp [h]
    · left
      simpa using h
  · simp only [condToday, condPastCompletedToday, Bool.and_eq_false_iff, beq_iff_eq,
      Bool.and_eq_true, decide_eq_true_eq]
    by_cases h : g.date = today
    · right
      simp [h]
    · left
      simpa using h
  · simp only [condPastIncomplete, condPastCompletedToday, Bool.and_eq_false_iff,
      Bool.and_eq_true, decide_eq_true_eq]
    cases h : g.completed
    · right
      simp [h]
    · left
      simp [h]

/-- C6: toggling with the goal's own flag flips `completed` and sets or
clears `completedAt` in the same update, so the result always satisfies
the invariant that `completedAt` is present exactly when `completed`
holds; a newly completed goal gets `completedAt = today`. -/
theorem toggleGoal_invariant (g : DailyGoal) (today : Int) :
    ((toggleGoal g g.completed today).completed = !g.completed) ∧
    ((toggleGoal g g.completed today).completedAt =
      if g.completed then none else some today) ∧
    ((toggleGoal g g.completed today).completedAt.isSome
      = (toggleGoal g g.completed today).completed) := by
  cases h : g.completed <;> simp [toggleGoal, h]

/-- C10: double-toggling a never-completed goal on one day restores it
exactly; double-toggling a goal completed on an earlier day `d` leaves
`completedAt = today ≠ d`, so the goal is not restored. -/
theorem doubleToggle_restores (g1 g2 : DailyGoal) (today d : Int)
    (h1 : g1.completed = false) (h2 : g1.completedAt = none)
    (h3 : g2.completed = true) (h4 : g2.completedAt = some d) (h5 : d ≠ today) :
    doubleToggle g1 today = g1 ∧
    (doubleToggle g2 today).completed = g2.completed ∧
    (doubleToggle g2 today).completedAt = some today ∧
    doubleToggle g2 today ≠ g2 := by
  refine ⟨?_, ?_, ?_, ?_⟩
  · cases g1
    simp_all [doubleToggle, toggleGoal]
  · simp [doubleToggle, toggleGoal, h3]
  · simp [doubleToggle, toggleGoal, h3]
  · intro heq
    have : (doubleToggle g2 today).completedAt = g2.completedAt := by rw [heq]
    rw [h4] at this
    simp [doubleToggle, toggleGoal, h3] at this
    exact h5 this.symm

/-- A goal dated day 10, never completed. -/
def goalIncompleteW : DailyGoal :=
  { id := "g1", userId := "u", date := 10, title := "Electricity", subject := "Science",
    targetHours := 2, completed := false, priority := .High, createdAt := 0,
    completedAt := none }

/-- A goal dated day 10, completed on day 12. -/
def goalCompletedW : DailyGoal :=
  { id := "g2", userId := "u", date := 10, title := "Quadratics", subject := "Maths",
    targetHours := 1, completed := true, priority := .Medium, createdAt := 0,
    completedAt := some 12 }

/-- Witness for C10 at day 20: the incomplete goal round-trips, the goal
completed on day 12 ends with `completedAt = 20`. -/
theorem doubleToggle_restores_witness :
    doubleToggle goalIncompleteW 20 = goalIncompleteW ∧
    (doubleToggle goalCompletedW 20).completed = goalCompletedW.completed ∧
    (doubleToggle goalCompletedW 20).completedAt = some 20 ∧
    doubleToggle goalCompletedW 20 ≠ goalCompletedW :=
  doubleToggle_restores goalIncompleteW goalCompletedW 20 12
    rfl rfl rfl rfl (by decide)

/-! ## Session retrieval (`api.getSessions`, services/api.ts) -/

/-- The page size of the unfiltered Firestore query (`limit(200)`). -/
def PAGE_LIMIT : Nat := 200

/-- Newest end time first: both branches order unfiltered results by
`endTime` descending (Firestore `orderBy("endTime", "desc")`; the mock's
comparator `b.endTime - a.endTime`).  JavaScript sort is stable, as is
`mergeSort`. -/
def sessionsByEndTimeDesc (l : List StudySession) : List StudySession :=
  l.mergeSort (fun a b => decide (b.endTime ≤ a.endTime))

/-- `api.getSessions`, Firestore branch: a date filter gives an equality
`where` query; no filter gives `orderBy endTime desc` with `limit(200)`. -/
def getSessionsRemote (all : List StudySession) (date : Option Int) : List StudySession :=
  match date with
  | some d => all.filter (fun s => s.date == d)
  | none => (sessionsByEndTimeDesc all).take PAGE_LIMIT

/-- `api.getSessions`, local mock branch: a date filter gives
`all.filter (s.date === date)`; no filter sorts everything by `endTime`
descending with no cap. -/
def getSessionsMock (all : List StudySession) (date : Option Int) : List StudySession :=
  match date with
  | some d => all.filter (fun s => s.date == d)
  | none => sessionsByEndTimeDesc all

/-! ## Dashboard aggregation (`components/Dashboard.tsx`) -/

/-- `allSessions.filter(s => s.date === today)` in `fetchDashboardData`. -/
def todaysSessions (allSessions : List StudySession) (today : Int) : List StudySession :=
  allSessions.filter (fun s => s.date == today)

/-- `goalSpecificMinutes`: the reduce over today's sessions matching the
goal's subject and title (case-sensitive string equality). -/
def goalSpecificMinutes (todaySess : List StudySession) (g : DailyGoal) : ℚ :=
  (todaySess.filter (fun s => s.subject == g.subject && s.topic == g.title)).foldl
    (fun sum s => sum + s.durationMinutes) 0

/-- `parseFloat(x.toFixed(1))`: rounding to one decimal place, half
toward positive infinity. -/
def round1 (q : ℚ) : ℚ := ((round (q * 10) : ℤ) : ℚ) / 10

/-- A fetched goal together with the `actualHours` field the dashboard
attaches to it. -/
structure GoalWithProgress extends DailyGoal where
  actualHours : ℚ
deriving DecidableEq, Repr

/-- `goalsWithProgress`: each fetched goal is given
`actualHours = parseFloat((goalSpecificMinutes / 60).toFixed(1))` —
the rounded value is what is stored. -/
def goalsWithProgress (fetchedGoals : List DailyGoal) (todaySess : List StudySession) :
    List GoalWithProgress :=
  fetchedGoals.map (fun g =>
    { toDailyGoal := g, actualHours := round1 (goalSpecificMinutes todaySess g / 60) })

/-- The on-pace comparison `goal.actualHours >= goal.targetHours` used
for the green progress styling (Dashboard.tsx, goal card). -/
def onPace (g : GoalWithProgress) : Bool :=
  decide (g.targetHours ≤ g.actualHours)

/-- `pMap` of the dashboard sort: High 3, Medium 2, Low 1. -/
def priorityVal : Priority → Int
  | .High => 3
  | .Medium => 2
  | .Low => 1

/-- The dashboard comparator as a boolean order: `a` may come before `b`
when the comparator value is ≤ 0, i.e. equal completion state with
`pMap[b] - pMap[a] ≤ 0`, or `a` incomplete and `b` completed. -/
def goalLE (a b : GoalWithProgress) : Bool :=
  if a.completed == b.completed then decide (priorityVal b.priority ≤ priorityVal a.priority)
  else !a.completed

/-- `goalsWithProgress.sort(comparator)` in `fetchDashboardData`. -/
def sortGoals (l : List GoalWithProgress) : List GoalWithProgress :=
  l.mergeSort goalLE

/-! ## Analytics statistics (`components/Analytics.tsx`) -/

/-- The 14-day trend window: the loop `for i = 13 .. 0` seeds the keys
`today - 13, …, today`; `Object.keys(...).sort()` then reads them in
chronological order (lexicographic on ISO dates). -/
def trendWindow (today : Int) : List Int :=
  (List.range 14).map (fun i : Nat => today - 13 + (i : Int))

/-- Total `durationMinutes` of the sessions dated `d`; accumulating only
window-dated sessions into `trendMap` and then reading key `d` gives
exactly this sum. -/
def minutesOn (sessions : List StudySession) (d : Int) : ℚ :=
  ((sessions.filter (fun s => s.date == d)).map (fun s => s.durationMinutes)).sum

/-- `trendChartData`: one entry per window day, in order, with
`hours = parseFloat((mins / 60).toFixed(1))`.  The displayed label is the
`MM-DD` substring of the day kept as first component here. -/
def trendChartData (sessions : List StudySession) (today : Int) : List (Int × ℚ) :=
  (trendWindow today).map (fun d => (d, round1 (minutesOn sessions d / 60)))

/-- `sessionDatesSet`: the dates of the user's sessions (membership in
the JavaScript `Set` is membership in this list). -/
def sessionDates (sessions : List StudySession) : List Int :=
  sessions.map (fun s => s.date)

/-- The `while (sessionDatesSet.has(tempDate))` walk, counting one per
consecutive day present and stopping at the first absent day.  The
source loop needs no fuel because the date set is finite; `fuel`
exceeding the number of session dates makes the recursion identical. -/
def streakWalk (dates : List Int) : Int → Nat → Nat
  | _, 0 => 0
  | d, fuel + 1 => if d ∈ dates then streakWalk dates (d - 1) fuel + 1 else 0

/-- `currentStreak` of Analytics.tsx: start at today if it has a
session, else at yesterday if that has one, else 0; then walk backward
while days have sessions. -/
def currentStreak (sessions : List StudySession) (today : Int) : Nat :=
  let dates := sessionDates sessions
  if today ∈ dates then streakWalk dates today (dates.length + 1)
  else if today - 1 ∈ dates then streakWalk dates (today - 1) (dates.length + 1)
  else 0

/-- Dashboard average confidence: `null` (rendered `'-'`) when no entry
exists, else `Math.round(sum / length)`. -/
def dashboardAvgConfidence (allConf : List Int) : Option Int :=
  if 0 < allConf.length then
    some (round (((allConf.foldl (fun a b => a + b) 0 : Int) : ℚ) / (allConf.length : ℚ)))
  else none

/-- Analytics `avgConf`: the same mean, but `0` when no entry exists;
the stats card renders it as a percentage unconditionally. -/
def analyticsAvgConf (allConf : List Int) : Int :=
  if 0 < allConf.length then
    round (((allConf.foldl (fun a b => a + b) 0 : Int) : ℚ) / (allConf.length : ℚ))
  else 0

/-! ## Claims on the dashboard aggregation -/

/-- Bridge between the source's `reduce` and `List.sum`. -/
theorem foldl_durations_eq_sum (l : List StudySession) :
    l.foldl (fun sum s => sum + s.durationMinutes) 0 =
      (l.map (fun s => s.durationMinutes)).sum := by
  rw [List.sum_eq_foldl, List.foldl_map]

/-- A 58-minute session matching `goalC2` on day 100. -/
def sessionC2 : StudySession :=
  { id := "s1", userId := "u", subject := "Science", topic := "Ohm", startTime := 0,
    endTime := 60, durationMinutes := 58, date := 100 }

/-- A 1-hour goal on day 100 with `sessionC2`'s subject and title. -/
def goalC2 : DailyGoal :=
  { id := "g", userId := "u", date := 100, title := "Ohm", subject := "Science",
    targetHours := 1, completed := false, priority := .High, createdAt := 0,
    completedAt := none }

/-- C2 counterexample: with one 58-minute matching session against a
1-hour target, the full-precision time `58/60` is below the target, yet
the dashboard stores the rounded `actualHours = 1.0` and its on-pace
comparison uses that rounded value, reporting the goal on pace.  Full
precision is not retained internally. -/
theorem actualHours_precision_cex :
    goalSpecificMinutes (todaysSessions [sessionC2] 100) goalC2 / 60 < goalC2.targetHours ∧
    goalsWithProgress [goalC2] (todaysSessions [sessionC2] 100) =
      [{ toDailyGoal := goalC2, actualHours := 1 }] ∧
    onPace { toDailyGoal := goalC2, actualHours := 1 } = true := by
  have hsess : todaysSessions [sessionC2] 100 = [sessionC2] := by
    simp [todaysSessions, sessionC2]
  have hmin : goalSpecificMinutes [sessionC2] goalC2 = 58 := by
    simp [goalSpecificMinutes, sessionC2, goalC2]
  refine ⟨?_, ?_, ?_⟩
  · rw [hsess, hmin]
    norm_num [goalC2]
  · rw [hsess]
    simp only [goalsWithProgress, List.map_cons, List.map_nil, hmin]
    norm_num [round1, round_eq]
  · simp [onPace, goalC2]

/-- C2 amended: each visible goal's stored `actualHours` is the sum of
`durationMinutes` over the sessions with today's date and the goal's
subject and title, divided by 60 and rounded to one decimal place; the
on-pace flag compares the target against this rounded value. -/
theorem actualHours_amended (fetchedGoals : List DailyGoal) (allSessions : List StudySession)
    (today : Int) (g : DailyGoal) (hmem : g ∈ fetchedGoals) :
    ({ toDailyGoal := g,
       actualHours := round1
        ((((allSessions.filter (fun s =>
            (s.subject == g.subject && s.topic == g.title) && s.date == today)).map
          (fun s => s.durationMinutes)).sum) / 60) : GoalWithProgress }
      ∈ goalsWithProgress fetchedGoals (todaysSessions allSessions today)) ∧
    ∀ gp ∈ goalsWithProgress fetchedGoals (todaysSessions allSessions today),
      (onPace gp = true ↔ gp.targetHours ≤ gp.actualHours) := by
  constructor
  · have hkey : goalSpecificMinutes (todaysSessions allSessions today) g =
        ((allSessions.filter (fun s =>
            (s.subject == g.subject && s.topic == g.title) && s.date == today)).map
          (fun s => s.durationMinutes)).sum := by
      rw [goalSpecificMinutes, foldl_durations_eq_sum, todaysSessions, List.filter_filter]
    rw [goalsWithProgress, ← hkey]
    exact List.mem_map_of_mem _ hmem
  · intro gp _
    simp [onPace]

/-- Witness for C2's amended claim at the concrete 58-minute input. -/
theorem actualHours_amended_witness :
    ({ toDailyGoal := goalC2,
       actualHours := round1
        (((([sessionC2].filter (fun s =>
            (s.subject == goalC2.subject && s.topic == goalC2.title) && s.date == 100)).map
          (fun s => s.durationMinutes)).sum) / 60) : GoalWithProgress }
      ∈ goalsWithProgress [goalC2] (todaysSessions [sessionC2] 100)) ∧
    ∀ gp ∈ goalsWithProgress [goalC2] (todaysSessions [sessionC2] 100),
      (onPace gp = true ↔ gp.targetHours ≤ gp.actualHours) :=
  actualHours_amended [goalC2] [sessionC2] 100 goalC2 (by simp)

/-- C7: when two goals share subject and title, the per-goal time
computation assigns the full matching-session total to each of them, so
the two goals together account the matching minutes twice. -/
theorem duplicateGoals_doubleCount (todaySess : List StudySession) (g1 g2 : DailyGoal)
    (hsub : g1.subject = g2.subject) (htitle : g1.title = g2.title) :
    goalSpecificMinutes todaySess g1 =
      ((todaySess.filter (fun s => s.subject == g1.subject && s.topic == g1.title)).map
        (fun s => s.durationMinutes)).sum ∧
    goalSpecificMinutes todaySess g2 = goalSpecificMinutes todaySess g1 ∧
    goalSpecificMinutes todaySess g1 + goalSpecificMinutes todaySess g2 =
      2 * ((todaySess.filter (fun s => s.subject == g1.subject && s.topic == g1.title)).map
        (fun s => s.durationMinutes)).sum := by
  have h1 : goalSpecificMinutes todaySess g1 =
      ((todaySess.filter (fun s => s.subject == g1.subject && s.topic == g1.title)).map
        (fun s => s.durationMinutes)).sum := by
    rw [goalSpecificMinutes, foldl_durations_eq_sum]
  have h2 : goalSpecificMinutes todaySess g2 = goalSpecificMinutes todaySess g1 := by
    rw [goalSpecificMinutes, goalSpecificMinutes, hsub, htitle]
  refine ⟨h1, h2, ?_⟩
  rw [h2, h1]
  ring

/-- A second goal with `sessionC2`'s subject and title, distinct from
`goalC2` in every other respect. -/
def goalC7 : DailyGoal :=
  { id := "g7", userId := "u", date := 99, title := "Ohm", subject := "Science",
    targetHours := 3, completed := false, priority := .Low, createdAt := 5,
    completedAt := none }

/-- Witness for C7: the 58 matching minutes are attributed in full to
both `goalC2` and `goalC7`. -/
theorem duplicateGoals_doubleCount_witness :
    goalSpecificMinutes [sessionC2] goalC2 =
      (([sessionC2].filter (fun s => s.subject == goalC2.subject && s.topic == goalC2.title)).map
        (fun s => s.durationMinutes)).sum ∧
    goalSpecificMinutes [sessionC2] goalC7 = goalSpecificMinutes [sessionC2] goalC2 ∧
    goalSpecificMinutes [sessionC2] goalC2 + goalSpecificMinutes [sessionC2] goalC7 =
      2 * (([sessionC2].filter (fun s => s.subject == goalC2.subject && s.topic == goalC2.title)).map
        (fun s => s.durationMinutes)).sum :=
  duplicateGoals_doubleCount [sessionC2] goalC2 goalC7 rfl rfl

/-- The dashboard comparator is transitive. -/
theorem goalLE_trans (a b c : GoalWithProgress)
    (h1 : goalLE a b = true) (h2 : goalLE b c = true) : goalLE a c = true := by
  simp only [goalLE, beq_iff_eq] at h1 h2 ⊢
  cases ha : a.completed <;> cases hb : b.completed <;> cases hc : c.completed <;>
    simp_all <;> omega

/-- The dashboard comparator is total. -/
theorem goalLE_total (a b : GoalWithProgress) : (goalLE a b || goalLE b a) = true := by
  simp only [goalLE, beq_iff_eq]
  cases ha : a.completed <;> cases hb : b.completed <;> simp_all <;> omega

/-- C9: the sorted dashboard list is a permutation of its input in which
a goal placed before another is never completed-before-incomplete, and
equal completion states appear in descending priority. -/
theorem sortGoals_spec (l : List GoalWithProgress) :
    (sortGoals l).Perm l ∧
    List.Pairwise (fun a b =>
      (a.completed = true → b.completed = true) ∧
      (a.completed = b.completed → priorityVal b.priority ≤ priorityVal a.priority))
      (sortGoals l) := by
  refine ⟨List.mergeSort_perm l goalLE, ?_⟩
  have h := List.sorted_mergeSort goalLE_trans goalLE_total l
  refine h.imp ?_
  intro a b hab
  simp only [goalLE, beq_iff_eq] at hab
  constructor
  · intro hac
    by_cases hcc : a.completed = b.completed
    · rw [← hcc]
      exact hac
    · rw [if_neg hcc, hac] at hab
      simp at hab
  · intro hcc
    rw [if_pos hcc] at hab
    simpa using hab

/-! ## Claims on session retrieval -/

/-- The end-time order used for unfiltered results is transitive. -/
theorem endTimeDesc_trans (a b c : StudySession)
    (h1 : decide (b.endTime ≤ a.endTime) = true)
    (h2 : decide (c.endTime ≤ b.endTime) = true) :
    decide (c.endTime ≤ a.endTime) = true := by
  simp only [decide_eq_true_eq] at h1 h2 ⊢
  omega

/-- The end-time order used for unfiltered results is total. -/
theorem endTimeDesc_total (a b : StudySession) :
    (decide (b.endTime ≤ a.endTime) || decide (a.endTime ≤ b.endTime)) = true := by
  simp only [Bool.or_eq_true, decide_eq_true_eq]
  omega

/-- A throwaway session used to exhibit the page cap. -/
def sessionW : StudySession :=
  { id := "s", userId := "u", subject := "Maths", topic := "t", startTime := 0,
    endTime := 0, durationMinutes := 30, date := 0 }

/-- C8 counterexample: with 201 stored sessions, the unfiltered remote
query returns only 200 of them (so not all), while the mock branch
returns all 201 (so no bounded page cap). -/
theorem getSessions_cap_cex :
    (getSessionsRemote (List.replicate 201 sessionW) none).length = 200 ∧
    (List.replicate 201 sessionW).length = 201 ∧
    (getSessionsMock (List.replicate 201 sessionW) none).length = 201 := by
  refine ⟨?_, by rw [List.length_replicate], ?_⟩
  · simp only [getSessionsRemote, sessionsByEndTimeDesc, PAGE_LIMIT, List.length_take,
      List.length_mergeSort, List.length_replicate]
    norm_num
  · simp only [getSessionsMock, sessionsByEndTimeDesc, List.length_mergeSort,
      List.length_replicate]

/-- C8 amended: a date-filtered call (either branch) returns exactly the
sessions with that date; an unfiltered call sorts all sessions newest
end time first, the remote branch then truncating to the 200-session
page while the mock branch returns everything; the two branches agree
whenever at most 200 sessions are stored. -/
theorem getSessions_amended (all : List StudySession) (d : Int) :
    getSessionsRemote all (some d) = all.filter (fun s => s.date == d) ∧
    getSessionsMock all (some d) = all.filter (fun s => s.date == d) ∧
    getSessionsRemote all none = (getSessionsMock all none).take PAGE_LIMIT ∧
    (getSessionsMock all none).Perm all ∧
    List.Pairwise (fun a b => b.endTime ≤ a.endTime) (getSessionsMock all none) ∧
    (all.length ≤ PAGE_LIMIT → getSessionsRemote all none = getSessionsMock all none) := by
  refine ⟨rfl, rfl, rfl, ?_, ?_, ?_⟩
  · exact List.mergeSort_perm all _
  · have h := List.sorted_mergeSort endTimeDesc_trans endTimeDesc_total all
    exact h.imp (fun hab => by simpa using hab)
  · intro hlen
    have : (sessionsByEndTimeDesc all).length ≤ PAGE_LIMIT := by
      rwa [sessionsByEndTimeDesc, List.length_mergeSort]
    simp [getSessionsRemote, getSessionsMock, List.take_of_length_le this]

/-! ## Claims on the analytics statistics -/

/-- C4: the 14-day trend series has exactly 14 entries, its dates are
the window days in strictly increasing (chronological) order with no
repetition, every day of the window appears, and a day none of the
sessions is dated to carries the value 0. -/
theorem trend_density (sessions : List StudySession) (today : Int) :
    (trendChartData sessions today).length = 14 ∧
    (trendChartData sessions today).map Prod.fst = trendWindow today ∧
    List.Pairwise (fun a b : Int × ℚ => a.1 < b.1) (trendChartData sessions today) ∧
    ((trendChartData sessions today).map Prod.fst).Nodup ∧
    (∀ d : Int, d ∈ trendWindow today ↔ today - 13 ≤ d ∧ d ≤ today) ∧
    (∀ e ∈ trendChartData sessions today, (∀ s ∈ sessions, s.date ≠ e.1) → e.2 = 0) := by
  have hwin : List.Pairwise (fun a b : Int => a < b) (trendWindow today) := by
    rw [trendWindow, List.pairwise_map]
    exact (List.pairwise_lt_range 14).imp (fun h => by omega)
  have hfst : (trendChartData sessions today).map Prod.fst = trendWindow today := by
    rw [trendChartData, List.map_map]
    exact List.map_id'' (fun x => rfl) _
  refine ⟨?_, hfst, ?_, ?_, ?_, ?_⟩
  · rw [trendChartData, List.length_map, trendWindow, List.length_map, List.length_range]
  · rw [trendChartData, List.pairwise_map]
    exact hwin
  · rw [hfst]
    exact hwin.imp (fun h => ne_of_lt h)
  · intro d
    rw [trendWindow]
    simp only [List.mem_map, List.mem_range]
    constructor
    · rintro ⟨i, hi, rfl⟩
      omega
    · rintro ⟨h1, h2⟩
      exact ⟨(d - (today - 13)).toNat, by omega, by omega⟩
  · intro e he hnone
    rw [trendChartData] at he
    obtain ⟨d, _, rfl⟩ := List.mem_map.mp he
    have hfilter : sessions.filter (fun s => s.date == d) = [] := by
      rw [List.filter_eq_nil_iff]
      intro s hs
      simpa using hnone s hs
    simp [minutesOn, hfilter, round1]

/-! ## Claims on the streak -/

/-- Every day the walk counted, from the start day backward, is a
session day. -/
theorem streakWalk_mem (dates : List Int) :
    ∀ (fuel : Nat) (d : Int) (i : Nat), i < streakWalk dates d fuel → d - i ∈ dates := by
  intro fuel
  induction fuel with
  | zero =>
    intro d i h
    simp [streakWalk] at h
  | succ n ih =>
    intro d i h
    simp only [streakWalk] at h
    by_cases hd : d ∈ dates
    · rw [if_pos hd] at h
      cases i with
      | zero => simpa using hd
      | succ j =>
        have hj : j < streakWalk dates (d - 1) n := by omega
        have hmem := ih (d - 1) j hj
        have heq : d - ((j + 1 : Nat) : Int) = d - 1 - (j : Int) := by push_cast; ring
        rw [heq]
        exact hmem
    · rw [if_neg hd] at h
      omega

/-- While fuel remains, the walk stops exactly at the first absent day. -/
theorem streakWalk_stop (dates : List Int) :
    ∀ (fuel : Nat) (d : Int), streakWalk dates d fuel < fuel →
      d - (streakWalk dates d fuel : Int) ∉ dates := by
  intro fuel
  induction fuel with
  | zero =>
    intro d h
    omega
  | succ n ih =>
    intro d h
    simp only [streakWalk] at h ⊢
    by_cases hd : d ∈ dates
    · rw [if_pos hd] at h ⊢
      have h' : streakWalk dates (d - 1) n < n := by omega
      have hstop := ih (d - 1) h'
      have heq : d - ((streakWalk dates (d - 1) n + 1 : Nat) : Int)
          = d - 1 - (streakWalk dates (d - 1) n : Int) := by push_cast; ring
      rw [heq]
      exact hstop
    · rw [if_neg hd] at h ⊢
      simpa using hd

/-- The counted run consists of distinct members of the date list, so it
is never longer than the list. -/
theorem streakWalk_le_length (dates : List Int) (d : Int) (fuel : Nat) :
    streakWalk dates d fuel ≤ dates.length := by
  set k := streakWalk dates d fuel with hk
  have hrun : ((List.range k).map (fun i : Nat => d - (i : Int))).Nodup := by
    refine List.Nodup.map ?_ (List.nodup_range k)
    intro a b hab
    have hab' : d - (a : Int) = d - (b : Int) := hab
    omega
  have hsub : ((List.range k).map (fun i : Nat => d - (i : Int))).toFinset ⊆ dates.toFinset := by
    intro x hx
    rw [List.mem_toFinset] at hx ⊢
    obtain ⟨i, hi, rfl⟩ := List.mem_map.mp hx
    exact streakWalk_mem dates fuel d i (by rwa [List.mem_range] at hi; )
  have hcard := Finset.card_le_card hsub
  rw [List.toFinset_card_of_nodup hrun] at hcard
  calc k = ((List.range k).map (fun i : Nat => d - (i : Int))).length := by
            rw [List.length_map, List.length_range]
    _ ≤ dates.toFinset.card := hcard
    _ ≤ dates.length := List.toFinset_card_le dates

/-- A session whose only varying attribute is its date, for the worked
examples of the streak rule. -/
def sessionOn (d : Int) : StudySession :=
  { id := "s", userId := "u", subject := "Maths", topic := "t", startTime := 0,
    endTime := 0, durationMinutes := 30, date := d }

/-- C3: with `D` being today if today has a session, else yesterday, the
streak counts exactly the maximal run of consecutive session days ending
at `D`: every one of the counted days has a session, the next day
backward has none, and an empty today and yesterday give 0.  The two
worked examples: sessions on days 15 and 16 with today = 17 give 2, and
a lone session on day 10 with today = 17 gives 0. -/
theorem currentStreak_spec (sessions : List StudySession) (today : Int) :
    ((today ∉ sessionDates sessions ∧ today - 1 ∉ sessionDates sessions) →
        currentStreak sessions today = 0) ∧
    (∀ i : Nat, i < currentStreak sessions today →
      (if today ∈ sessionDates sessions then today else today - 1) - (i : Int)
        ∈ sessionDates sessions) ∧
    ((if today ∈ sessionDates sessions then today else today - 1) -
        (currentStreak sessions today : Int) ∉ sessionDates sessions) ∧
    currentStreak [sessionOn 15, sessionOn 16] 17 = 2 ∧
    currentStreak [sessionOn 10] 17 = 0 := by
  set dates := sessionDates sessions with hdates
  have hfuel : ∀ d : Int, streakWalk dates d (dates.length + 1) < dates.length + 1 := by
    intro d
    have := streakWalk_le_length dates d (dates.length + 1)
    omega
  refine ⟨?_, ?_, ?_, ?_, ?_⟩
  · rintro ⟨h1, h2⟩
    rw [currentStreak, if_neg h1, if_neg h2]
  · intro i hi
    by_cases h1 : today ∈ dates
    · rw [if_pos h1]
      rw [currentStreak, if_pos h1] at hi
      exact streakWalk_mem dates _ today i hi
    · rw [if_neg h1]
      by_cases h2 : today - 1 ∈ dates
      · rw [currentStreak, if_neg h1, if_pos h2] at hi
        exact streakWalk_mem dates _ (today - 1) i hi
      · rw [currentStreak, if_neg h1, if_neg h2] at hi
        omega
  · by_cases h1 : today ∈ dates
    · rw [if_pos h1, currentStreak, if_pos h1]
      exact streakWalk_stop dates _ today (hfuel today)
    · rw [if_neg h1]
      by_cases h2 : today - 1 ∈ dates
      · rw [currentStreak, if_neg h1, if_pos h2]
        exact streakWalk_stop dates _ (today - 1) (hfuel (today - 1))
      · rw [currentStreak, if_neg h1, if_neg h2]
        simpa using h2
  · simp [currentStreak, sessionDates, sessionOn, streakWalk]
  · simp [currentStreak, sessionDates, sessionOn, streakWalk]

/-! ## Claims on the average confidence -/

/-- C5 counterexample: with zero confidence entries the analytics stat
is the number 0 — rendered as `0%` by the stats card, which shows the
value unconditionally — while only the dashboard models absence with
`null`. -/
theorem avgConfidence_zero_cex :
    analyticsAvgConf [] = 0 ∧ dashboardAvgConfidence [] = none := by
  constructor <;> rfl

/-- C5 amended: with at least one entry both views report the rounded
arithmetic mean of the scores; with no entries the dashboard reports
absence (`null`, rendered as a dash) but the analytics view reports the
number 0. -/
theorem avgConfidence_amended (allConf : List Int) (h : allConf ≠ []) :
    dashboardAvgConfidence allConf =
      some (round ((allConf.sum : ℚ) / (allConf.length : ℚ))) ∧
    analyticsAvgConf allConf = round ((allConf.sum : ℚ) / (allConf.length : ℚ)) ∧
    dashboardAvgConfidence [] = none ∧
    analyticsAvgConf [] = 0 := by
  have hlen : 0 < allConf.length := List.length_pos.mpr h
  have hfold : allConf.foldl (fun a b => a + b) 0 = allConf.sum := by
    rw [List.sum_eq_foldl]
  refine ⟨?_, ?_, rfl, rfl⟩
  · rw [dashboardAvgConfidence, if_pos hlen, hfold]
  · rw [analyticsAvgConf, if_pos hlen, hfold]

/-- Witness for C5's amended claim: the entries 80 and 91 average to
85.5, reported as the rounded 86 by both views. -/
theorem avgConfidence_amended_witness :
    dashboardAvgConfidence [80, 91] =
      some (round ((([80, 91] : List Int).sum : ℚ) / (([80, 91] : List Int).length : ℚ))) ∧
    analyticsAvgConf [80, 91] =
      round ((([80, 91] : List Int).sum : ℚ) / (([80, 91] : List Int).length : ℚ)) ∧
    dashboardAvgConfidence [] = none ∧
    analyticsAvgConf [] = 0 :=
  avgConfidence_amended [80, 91] (by simp)

end Boardprep
